import Mathlib

/-!
Shallow embedding of FoodieBot (`foodbot.py`), a database-driven conversational
fast-food recommender.  Text is embedded as `List Char` (the inputs in the
program are ASCII, so Python `str.lower` coincides with mapping `Char.toLower`),
SQL `REAL` money values as `ℚ`, and SQL tables as Lean lists of rows.  Regular
expressions in the source use only literal alternation, `\b` word boundaries,
`\s*`, `\$?` and `\d+`; they are embedded as explicit substring / word-boundary
scanners below.
-/

namespace FoodBot

/-- Text is modelled as a list of characters. -/
abbrev Text := List Char

/-- Python `str.lower()` on the ASCII texts handled by the program. -/
def lowerText (s : Text) : Text := s.map Char.toLower

/-- Python `pat in s` substring test (also the regex search for a literal
alternative, and pandas `str.contains` for the metacharacter-free patterns the
program builds from `\w+` tokens). -/
def hasSubstr (pat : Text) : Text → Bool
  | [] => pat.isEmpty
  | c :: t => pat.isPrefixOf (c :: t) || hasSubstr pat t

/-- Regex `\w` on ASCII text: letters, digits and underscore. -/
def isWordChar (c : Char) : Bool := c.isAlphanum || c == '_'

/-- A `\b` boundary holds before position `i` when there is no previous
character or the previous character is not a word character. -/
def boundaryBefore : Option Char → Bool
  | none => true
  | some c => !(isWordChar c)

/-- A `\b` boundary holds after a match when the text ends there or the next
character is not a word character. -/
def boundaryAfter : Text → Bool
  | [] => true
  | c :: _ => !(isWordChar c)

/-- The pattern occurs at the head of `s` with a `\b` boundary after it. -/
def hasWordAt (pat s : Text) : Bool :=
  pat.isPrefixOf s && boundaryAfter (s.drop pat.length)

/-- Scanner for `\b pat \b` carrying the previous character. -/
def hasWordAux (pat : Text) : Option Char → Text → Bool
  | _, [] => false
  | prev, c :: t =>
      (boundaryBefore prev && hasWordAt pat (c :: t)) || hasWordAux pat (some c) t

/-- Regex search for `\b pat \b`, for patterns that start and end with word
characters (all the boundary-delimited patterns in the source do). -/
def hasWord (pat s : Text) : Bool := hasWordAux pat none s

/-- Regex search for `\$\d+`: a dollar sign immediately followed by a digit. -/
def hasDollarDigit : Text → Bool
  | [] => false
  | [_] => false
  | c :: d :: t => (c == '$' && d.isDigit) || hasDollarDigit (d :: t)

/-! The eleven lexical rules of `calculate_interest`, in source order. -/

/-- Rule `(spicy|vegan|cheese|burger|pizza|taco|wrap|salad)` (+15). -/
def foodNounRule (t : Text) : Bool :=
  [ "spicy", "vegan", "cheese", "burger", "pizza", "taco", "wrap", "salad"
  ].any (fun w => hasSubstr w.toList t)

/-- Rule `"vegetarian" in text or "vegan" in text` (+10). -/
def vegRule (t : Text) : Bool :=
  hasSubstr "vegetarian".toList t || hasSubstr "vegan".toList t

/-- Rule `"$" in text or \bunder\b|\bbelow\b` (+5). -/
def priceCueRule (t : Text) : Bool :=
  hasSubstr "$".toList t || hasWord "under".toList t || hasWord "below".toList t

/-- Rule `(happy|adventurous|tired|sad|hungry|indulgent)` (+20). -/
def emotionRule (t : Text) : Bool :=
  [ "happy", "adventurous", "tired", "sad", "hungry", "indulgent"
  ].any (fun w => hasSubstr w.toList t)

/-- Rule `"?" in text` (+10). -/
def questionRule (t : Text) : Bool := hasSubstr "?".toList t

/-- Rule `(love|perfect|amazing|great|yum|yummy)` (+8). -/
def positiveRule (t : Text) : Bool :=
  [ "love", "perfect", "amazing", "great", "yum", "yummy"
  ].any (fun w => hasSubstr w.toList t)

/-- Rule `"how much" in text or "price" in text or \$\d+` (+25). -/
def pricingIntentRule (t : Text) : Bool :=
  hasSubstr "how much".toList t || hasSubstr "price".toList t || hasDollarDigit t

/-- Rule `(order|add to cart|take it|i'll take it|i will take it|buy)` (+30). -/
def purchaseRule (t : Text) : Bool :=
  [ "order", "add to cart", "take it", "i\x27ll take it", "i will take it", "buy"
  ].any (fun w => hasSubstr w.toList t)

/-- Rule `\bmaybe\b|\bnot sure\b` (−10). -/
def hesitationRule (t : Text) : Bool :=
  hasWord "maybe".toList t || hasWord "not sure".toList t

/-- Rule `"too expensive" in text or "expensive" in text` (−15). -/
def expensiveRule (t : Text) : Bool :=
  hasSubstr "too expensive".toList t || hasSubstr "expensive".toList t

/-- Rule `\bdon'?t like\b|\bnot for me\b|\bhate\b` (−25); `'?` expands to the
two literal alternatives. -/
def rejectionRule (t : Text) : Bool :=
  hasWord "dont like".toList t || hasWord "don\x27t like".toList t ||
    hasWord "not for me".toList t || hasWord "hate".toList t

/-- The raw signed sum accumulated by the sequential `score +=` / `score -=`
statements of `calculate_interest`, before clamping. -/
def rawInterest (t : Text) : Int :=
  (if foodNounRule t then 15 else 0)
    + (if vegRule t then 10 else 0)
    + (if priceCueRule t then 5 else 0)
    + (if emotionRule t then 20 else 0)
    + (if questionRule t then 10 else 0)
    + (if positiveRule t then 8 else 0)
    + (if pricingIntentRule t then 25 else 0)
    + (if purchaseRule t then 30 else 0)
    - (if hesitationRule t then 10 else 0)
    - (if expensiveRule t then 15 else 0)
    - (if rejectionRule t then 25 else 0)

/-- `calculate_interest`: 0 on empty input (Python falsiness of `""`), else the
rule sum over the lowercased text clamped with `max(0, min(100, score))`. -/
def calculate_interest (user_input : Text) : Int :=
  if user_input = [] then 0
  else max 0 (min 100 (rawInterest (lowerText user_input)))

/-! Product rows: one structure field per column of the `products` table.
JSON-serialized list columns are embedded directly as lists (the program only
ever round-trips them through `json.dumps` / `json.loads`). -/

/-- A row of the `products` table. -/
structure Product where
  product_id : String
  name : Text
  category : Text
  description : Text
  ingredients : List Text
  price : ℚ
  calories : Int
  prep_time : Text
  dietary_tags : List Text
  mood_tags : List Text
  allergens : List Text
  popularity_score : Int
  chef_special : Bool
  limited_time : Bool
  spice_level : Int
  image_prompt : Text
deriving DecidableEq

/-- A scored row: the `match_score` column added by `recommend_products`. -/
structure ScoredProduct where
  item : Product
  match_score : Int
deriving DecidableEq

/-- SQLite `field LIKE '%pat%'` for a pattern without wildcard characters
(the program interpolates plain category names): a case-insensitive (ASCII)
substring test. -/
def sqlLikeContains (field pat : Text) : Bool :=
  hasSubstr (lowerText pat) (lowerText field)

/-- The price part of the `WHERE` clause: `AND price <= ?` is appended only
under `if budget:` (Python: `None` and `0.0` are falsy). -/
def budgetCond (budget : Option ℚ) (p : Product) : Bool :=
  match budget with
  | none => true
  | some b => if b = 0 then true else decide (p.price ≤ b)

/-- The category part of the `WHERE` clause: `AND category LIKE ?` is appended
only under `if category:` (`None` and `""` falsy). -/
def categoryCond (category : Option Text) (p : Product) : Bool :=
  match category with
  | none => true
  | some c => if c = [] then true else sqlLikeContains p.category c

/-- The full `WHERE` clause built by `recommend_products`. -/
def passesQuery (budget : Option ℚ) (category : Option Text) (p : Product) : Bool :=
  budgetCond budget p && categoryCond category p

/-- The mood term of the scoring stage: guarded by `if mood:` (truthiness),
then `1 if mood in json.loads(mood_tags) else 0` (exact membership). -/
def moodBonus (mood : Option Text) (p : Product) : Int :=
  match mood with
  | none => 0
  | some m => if m = [] then 0 else if m ∈ p.mood_tags then 1 else 0

/-- One keyword's contribution in the scoring loop: the keyword is lowercased
and matched as a substring of the lowercased name, description, and (via
`any`) each ingredient string. -/
def kwBonus (kw : Text) (p : Product) : Int :=
  (if hasSubstr (lowerText kw) (lowerText p.name) then 1 else 0)
    + (if hasSubstr (lowerText kw) (lowerText p.description) then 1 else 0)
    + (if p.ingredients.any (fun ing => hasSubstr (lowerText kw) (lowerText ing)) then 1 else 0)

/-- The `match_score` column computed by `recommend_products`: popularity
baseline, mood term, then the `for kw in keywords` loop (the `if keywords:`
guard is the identity on an empty list). -/
def computeMatchScore (mood : Option Text) (keywords : List Text) (p : Product) : Int :=
  p.popularity_score + moodBonus mood p
    + keywords.foldl (fun acc kw => acc + kwBonus kw p) 0

/-- Descending order on `match_score`, the key of
`df.sort_values("match_score", ascending=False)`. -/
def byScoreDesc (a b : ScoredProduct) : Prop := b.match_score ≤ a.match_score

instance : DecidableRel byScoreDesc :=
  fun a b => inferInstanceAs (Decidable (b.match_score ≤ a.match_score))

instance : IsTotal ScoredProduct byScoreDesc :=
  ⟨fun a b => le_total b.match_score a.match_score⟩

instance : IsTrans ScoredProduct byScoreDesc :=
  ⟨fun _ _ _ hab hbc => le_trans hbc hab⟩

/-- `FoodieBotDatabase.recommend_products`: SQL filter over the catalog, the
scoring stage, `sort_values("match_score", ascending=False)`, and
`df.head(10)`.  The sort is embedded as a stable descending sort; pandas'
default quicksort kind fixes no particular order among equal-scored rows, so
only tie-order-insensitive properties (membership, descending order,
truncation, determinism) are read off this embedding. -/
def recommend_products (catalog : List Product) (mood : Option Text) (budget : Option ℚ)
    (category : Option Text) (keywords : List Text) : List ScoredProduct :=
  let filtered := catalog.filter (passesQuery budget category)
  let scored := filtered.map (fun p => ScoredProduct.mk p (computeMatchScore mood keywords p))
  (List.insertionSort byScoreDesc scored).take 10

/-- One keyword's contribution in the fallback scoring loop of the app body:
unlike the database path, the keyword is used as-is (not lowercased again). -/
def fallbackKwBonus (kw : Text) (p : Product) : Int :=
  (if hasSubstr kw (lowerText p.name) then 1 else 0)
    + (if hasSubstr kw (lowerText p.description) then 1 else 0)
    + (if p.ingredients.any (fun ing => hasSubstr kw (lowerText ing)) then 1 else 0)

/-- The category term of the fallback scoring (guarded by `if category:`):
`category.str.lower().str.contains(category.lower())`. -/
def fallbackCategoryBonus (category : Option Text) (p : Product) : Int :=
  match category with
  | none => 0
  | some c => if c = [] then 0
      else if hasSubstr (lowerText c) (lowerText p.category) then 1 else 0

/-- The fallback `match_score` of the app body (used when the database is
unavailable): popularity baseline, the same mood term, a category bonus —
absent from the database path — and the unguarded keyword loop. -/
def fallbackScore (mood : Option Text) (category : Option Text) (keywords : List Text)
    (p : Product) : Int :=
  p.popularity_score + moodBonus mood p + fallbackCategoryBonus category p
    + keywords.foldl (fun acc kw => acc + fallbackKwBonus kw p) 0

/-- The fallback recommendation path of the app body: no SQL filter, fallback
scoring, the same `sort_values` call and `head(10)`.  As above, the sort is
embedded as a stable descending sort and only tie-order-insensitive
properties are read off it. -/
def fallback_recommend (catalog : List Product) (mood : Option Text)
    (category : Option Text) (keywords : List Text) : List ScoredProduct :=
  let scored := catalog.map (fun p => ScoredProduct.mk p (fallbackScore mood category keywords p))
  (List.insertionSort byScoreDesc scored).take 10

/-! Intent extraction, inline in the app body. -/

/-- The structured intent the app body derives from the user's text (the
keyword token list is passed separately to the engine). -/
structure Intent where
  mood : Option Text
  category : Option Text
  budget : Option ℚ
deriving DecidableEq

/-- Category detection: `if "burger" in lower: "Burgers" elif "pizza":
"Pizza" elif "chicken": "Fried Chicken" else None`. -/
def detectCategory (input : Text) : Option Text :=
  if hasSubstr "burger".toList (lowerText input) then some "Burgers".toList
  else if hasSubstr "pizza".toList (lowerText input) then some "Pizza".toList
  else if hasSubstr "chicken".toList (lowerText input) then some "Fried Chicken".toList
  else none

/-- Mood detection: `"spicy" in lower`. -/
def detectMood (input : Text) : Option Text :=
  if hasSubstr "spicy".toList (lowerText input) then some "spicy".toList else none

/-- Regex `\s` on ASCII text. -/
def isPySpace (c : Char) : Bool :=
  c == ' ' || c == '\t' || c == '\n' || c == '\r' || c == '\x0b' || c == '\x0c'

/-- Decimal value of a digit run (the greedy `\d+` capture group). -/
def digitsVal (ds : Text) : Nat :=
  ds.foldl (fun a c => 10 * a + (c.toNat - 48)) 0

/-- Match the tail of `under\s*\$?(\d+)` directly after an occurrence of
`under`: skip whitespace, an optional dollar sign, then require at least one
digit; the group is the maximal digit run (converted by `float`, exact here). -/
def parseBudgetAfterUnder (rest : Text) : Option ℚ :=
  let s1 := rest.dropWhile isPySpace
  let s2 := match s1 with
    | '$' :: t => t
    | _ => s1
  let ds := s2.takeWhile Char.isDigit
  if ds = [] then none else some ((digitsVal ds : Nat) : ℚ)

/-- Leftmost-match scan of `re.search(r"under\s*\$?(\d+)", lower)`: at each
position where `under` occurs, try to complete the pattern; the first
completion wins. -/
def detectBudgetAux : Text → Option ℚ
  | [] => none
  | c :: t =>
      match (if ("under".toList).isPrefixOf (c :: t)
             then parseBudgetAfterUnder ((c :: t).drop 5) else none) with
      | some b => some b
      | none => detectBudgetAux t

/-- Budget detection: `re.search(r"under\s*\$?(\d+)", user_input.lower())`,
first match, `None` when absent. -/
def detectBudget (input : Text) : Option ℚ := detectBudgetAux (lowerText input)

/-- The mood, category and budget signals the app body extracts from one user
message. -/
def extractIntent (input : Text) : Intent :=
  ⟨detectMood input, detectCategory input, detectBudget input⟩

/-! Catalog seeding (`populate_products_safe`) and conversation logging
(`log_conversation`), over list-of-rows table states. -/

/-- The result dict of `populate_products_safe`. -/
structure SeedResult where
  success : Bool
  inserted : Nat
  error : Option String
deriving DecidableEq

/-- SQLite `INSERT OR REPLACE` of one row keyed by `product_id`: replace the
existing row with that key, else append. -/
def upsertRow (rows : List Product) (r : Product) : List Product :=
  if rows.any (fun q => q.product_id == r.product_id) then
    rows.map (fun q => if q.product_id == r.product_id then r else q)
  else rows ++ [r]

/-- `populate_products_safe` on a healthy store: if `SELECT COUNT(*)` is
positive, return `inserted = 0` without touching the table; otherwise insert
every normalized row (batching by 50 with intermediate commits does not change
the final state, and `inserted` accumulates the length of every batch, i.e.
the total row count). -/
def populate_products_safe (table : List Product) (products : List Product) :
    List Product × SeedResult :=
  if table.length > 0 then
    (table, ⟨true, 0, none⟩)
  else
    (products.foldl upsertRow table, ⟨true, products.length, none⟩)

/-- A row of the `conversations` table (surrogate key omitted). -/
structure ConversationRow where
  timestamp : String
  user_message : String
  bot_response : String
  interest_score : Int
  recommended_products : String
  session_id : String
deriving DecidableEq

/-- The raw `INSERT INTO conversations … ; commit` inside the `try` block:
appends the row, or raises (modelled by an injected fault). -/
def rawLogInsert (tableRows : List ConversationRow) (row : ConversationRow)
    (fault : Option String) : Except String (List ConversationRow) :=
  match fault with
  | some e => Except.error e
  | none => Except.ok (tableRows ++ [row])

/-- `log_conversation`: run the insert inside `try`; on any exception print it
and return normally (the table is left as it was).  The result is therefore
always `ok`. -/
def log_conversation (tableRows : List ConversationRow) (row : ConversationRow)
    (fault : Option String) : Except String (List ConversationRow) :=
  match rawLogInsert tableRows row fault with
  | Except.ok t => Except.ok t
  | Except.error _ => Except.ok tableRows

/-! Spec-side scoring formulas, for comparison with the code's scoring stage,
and concrete rows used as witnesses and counterexamples. -/

/-- The per-item scoring formula exactly as the claim states it for the
recommendation scoring stage: popularity baseline, +1 mood-tag match, +1
category match (substring / case-insensitive equality), and per keyword +1
for a name, a description and an ingredient hit. -/
def claimedScoreC1 (mood : Option Text) (category : Option Text) (keywords : List Text)
    (p : Product) : Int :=
  p.popularity_score
    + (match mood with
       | none => 0
       | some m => if m ∈ p.mood_tags then 1 else 0)
    + (match category with
       | none => 0
       | some c => if hasSubstr (lowerText c) (lowerText p.category) then 1 else 0)
    + (keywords.map (fun kw =>
        (if hasSubstr (lowerText kw) (lowerText p.name) then 1 else 0)
          + (if hasSubstr (lowerText kw) (lowerText p.description) then 1 else 0)
          + (if p.ingredients.any (fun ing => hasSubstr (lowerText kw) (lowerText ing)) then 1
             else 0))).sum

/-- The scoring formula as amended: the same baseline, mood and keyword terms,
but no category bonus (the database scoring stage has none; the category only
acts in the filter).  Mood presence means a nonempty mood string. -/
def amendedScoreC1 (mood : Option Text) (keywords : List Text) (p : Product) : Int :=
  p.popularity_score
    + (match mood with
       | none => 0
       | some m => if m ∈ p.mood_tags then 1 else 0)
    + (keywords.map (fun kw =>
        (if hasSubstr (lowerText kw) (lowerText p.name) then 1 else 0)
          + (if hasSubstr (lowerText kw) (lowerText p.description) then 1 else 0)
          + (if p.ingredients.any (fun ing => hasSubstr (lowerText kw) (lowerText ing)) then 1
             else 0))).sum

/-- A concrete catalog row, shaped like the generator's burger items. -/
def sampleBurger : Product :=
  { product_id := "FF002"
    name := "Classic All-American Burger".toList
    category := "Burgers".toList
    description := "Classic All-American Burger - a delicious burgers option.".toList
    ingredients := ["main ingredient".toList, "seasoning".toList, "garnish".toList]
    price := 5
    calories := 500
    prep_time := "10 mins".toList
    dietary_tags := ["classic".toList, "gourmet".toList]
    mood_tags := ["comfort".toList, "indulgent".toList]
    allergens := ["gluten".toList]
    popularity_score := 80
    chef_special := false
    limited_time := false
    spice_level := 1
    image_prompt := "photo of classic all-american burger".toList }

/-! Helper lemmas shared by the claim theorems. -/

/-- A left fold that adds `f` of each element is the sum of the mapped list. -/
theorem foldl_add_eq_sum (f : Text → Int) (l : List Text) (a : Int) :
    l.foldl (fun acc kw => acc + f kw) a = a + (l.map f).sum := by
  induction l generalizing a with
  | nil => simp
  | cons x xs ih => rw [List.foldl_cons, ih, List.map_cons, List.sum_cons]; ring

/-- Every element of a `recommend_products` result is a surviving candidate
paired with its computed match score. -/
theorem mem_recommend_products {catalog : List Product} {mood : Option Text}
    {budget : Option ℚ} {category : Option Text} {keywords : List Text} {x : ScoredProduct}
    (hx : x ∈ recommend_products catalog mood budget category keywords) :
    ∃ p, p ∈ catalog.filter (passesQuery budget category) ∧
      x = ScoredProduct.mk p (computeMatchScore mood keywords p) := by
  have hx' : x ∈ (List.insertionSort byScoreDesc
      ((catalog.filter (passesQuery budget category)).map
        (fun p => ScoredProduct.mk p (computeMatchScore mood keywords p)))).take 10 := hx
  have h1 := List.mem_of_mem_take hx'
  rw [List.mem_insertionSort] at h1
  rcases List.mem_map.mp h1 with ⟨p, hp, he⟩
  exact ⟨p, hp, he.symm⟩

/-- Every element of a `fallback_recommend` result is a catalog item paired
with its fallback score. -/
theorem mem_fallback_recommend {catalog : List Product} {mood : Option Text}
    {category : Option Text} {keywords : List Text} {x : ScoredProduct}
    (hx : x ∈ fallback_recommend catalog mood category keywords) :
    ∃ p, p ∈ catalog ∧ x = ScoredProduct.mk p (fallbackScore mood category keywords p) := by
  have hx' : x ∈ (List.insertionSort byScoreDesc
      (catalog.map (fun p => ScoredProduct.mk p (fallbackScore mood category keywords p)))).take 10 :=
    hx
  have h1 := List.mem_of_mem_take hx'
  rw [List.mem_insertionSort] at h1
  rcases List.mem_map.mp h1 with ⟨p, hp, he⟩
  exact ⟨p, hp, he.symm⟩

/-- The truthiness-guarded mood term is nonnegative. -/
theorem moodBonus_nonneg (mood : Option Text) (p : Product) : 0 ≤ moodBonus mood p := by
  cases mood with
  | none => simp [moodBonus]
  | some m =>
      simp only [moodBonus]
      split_ifs <;> norm_num

/-- The per-keyword term of the database path is nonnegative. -/
theorem kwBonus_nonneg (kw : Text) (p : Product) : 0 ≤ kwBonus kw p := by
  unfold kwBonus
  split_ifs <;> norm_num

/-- The per-keyword term of the fallback path is nonnegative. -/
theorem fallbackKwBonus_nonneg (kw : Text) (p : Product) : 0 ≤ fallbackKwBonus kw p := by
  unfold fallbackKwBonus
  split_ifs <;> norm_num

/-- The fallback category term is nonnegative. -/
theorem fallbackCategoryBonus_nonneg (category : Option Text) (p : Product) :
    0 ≤ fallbackCategoryBonus category p := by
  cases category with
  | none => simp [fallbackCategoryBonus]
  | some c =>
      simp only [fallbackCategoryBonus]
      split_ifs <;> norm_num

/-- A keyword fold of nonnegative contributions is nonnegative. -/
theorem foldl_kw_nonneg (f : Text → Int) (hf : ∀ kw, 0 ≤ f kw) (l : List Text) :
    0 ≤ l.foldl (fun acc kw => acc + f kw) 0 := by
  rw [foldl_add_eq_sum f l 0, zero_add]
  apply List.sum_nonneg
  intro x hx
  rcases List.mem_map.mp hx with ⟨kw, _, rfl⟩
  exact hf kw

/-- For a truthy (nonempty) mood, the code's match score coincides with the
amended per-item formula. -/
theorem computeMatchScore_eq_amended (mood : Option Text) (keywords : List Text)
    (p : Product) (hm : mood ≠ some []) :
    computeMatchScore mood keywords p = amendedScoreC1 mood keywords p := by
  cases mood with
  | none =>
      simp only [computeMatchScore, amendedScoreC1, moodBonus, kwBonus]
      rw [foldl_add_eq_sum
        (fun kw =>
          (if hasSubstr (lowerText kw) (lowerText p.name) then 1 else 0)
            + (if hasSubstr (lowerText kw) (lowerText p.description) then 1 else 0)
            + (if p.ingredients.any (fun ing => hasSubstr (lowerText kw) (lowerText ing)) then 1
               else 0))
        keywords 0, zero_add]
  | some m =>
      have hme : m ≠ [] := fun h => hm (congrArg some h)
      simp only [computeMatchScore, amendedScoreC1, moodBonus, kwBonus]
      rw [if_neg hme, foldl_add_eq_sum
        (fun kw =>
          (if hasSubstr (lowerText kw) (lowerText p.name) then 1 else 0)
            + (if hasSubstr (lowerText kw) (lowerText p.description) then 1 else 0)
            + (if p.ingredients.any (fun ing => hasSubstr (lowerText kw) (lowerText ing)) then 1
               else 0))
        keywords 0, zero_add]

/-- `populate_products_safe` on a populated store: no-op, `inserted = 0`. -/
theorem populate_noop (table products : List Product) (h : table ≠ []) :
    populate_products_safe table products = (table, ⟨true, 0, none⟩) := by
  unfold populate_products_safe
  rw [if_pos (List.length_pos.mpr h)]

/-- An upsert never empties the table. -/
theorem upsertRow_ne_nil (rows : List Product) (r : Product) : upsertRow rows r ≠ [] := by
  unfold upsertRow
  by_cases h : rows.any (fun q => q.product_id == r.product_id)
  · rw [if_pos h]
    cases rows with
    | nil => simp at h
    | cons a t => simp
  · rw [if_neg h]
    simp

/-- A fold of upserts over a nonempty table stays nonempty. -/
theorem foldl_upsert_ne_nil (l : List Product) (init : List Product) (h : init ≠ []) :
    l.foldl upsertRow init ≠ [] := by
  induction l generalizing init with
  | nil => exact h
  | cons x xs ih => rw [List.foldl_cons]; exact ih (upsertRow init x) (upsertRow_ne_nil init x)

/-! Claim theorems. -/

/-- C1 counterexample: an item whose category matches the intent's category
survives the filter but receives no category bonus in the scoring stage of
`recommend_products` — its match score stays at the popularity baseline 80,
while the claimed formula awards 81. -/
theorem scoring_category_bonus_cex :
    (recommend_products [sampleBurger] none none (some ("Burgers".toList)) []).map
        (fun s => s.match_score) = [80] ∧
    claimedScoreC1 none (some ("Burgers".toList)) [] sampleBurger = 81 ∧
    sampleBurger.popularity_score = 80 := by decide

/-- C1 (amended): for every surviving candidate, the scoring stage computes
the match score as the popularity baseline, plus 1 when a (nonempty) mood is
present and contained in the item's mood-tag set, plus, for every keyword
(duplicates counted), 1 per case-insensitive substring hit in the name, the
description, and the ingredient list — with no category bonus. -/
theorem recommend_scoring_amended :
    ∀ (catalog : List Product) (mood : Option Text) (budget : Option ℚ)
      (category : Option Text) (keywords : List Text) (x : ScoredProduct),
      mood ≠ some [] →
      x ∈ recommend_products catalog mood budget category keywords →
      x.match_score = amendedScoreC1 mood keywords x.item := by
  intro catalog mood budget category keywords x hm hx
  rcases mem_recommend_products hx with ⟨p, _, rfl⟩
  exact computeMatchScore_eq_amended mood keywords p hm

/-- C1 witness: the amended scoring law applied to a concrete catalog. -/
theorem recommend_scoring_amended_witness :
    (ScoredProduct.mk sampleBurger 80).match_score = amendedScoreC1 none [] sampleBurger :=
  recommend_scoring_amended [sampleBurger] none none (some ("Burgers".toList)) []
    (ScoredProduct.mk sampleBurger 80) (by decide) (by decide)

/-- C3: the interest scorer always returns an integer in [0,100]; the result
is the clamp of the signed sum of the independently fired lexical rules over
the lowercased text, and the empty string scores exactly 0. -/
theorem interest_bounded_and_clamped :
    (∀ s : Text, 0 ≤ calculate_interest s ∧ calculate_interest s ≤ 100 ∧
        calculate_interest s = max 0 (min 100 (rawInterest (lowerText s)))) ∧
    calculate_interest [] = 0 := by
  constructor
  · intro s
    by_cases hs : s = []
    · subst hs
      exact ⟨by decide, by decide, by decide⟩
    · have h : calculate_interest s = max 0 (min 100 (rawInterest (lowerText s))) := by
        unfold calculate_interest
        rw [if_neg hs]
      refine ⟨?_, ?_, h⟩
      · rw [h]
        exact le_max_left 0 _
      · rw [h]
        exact max_le (by norm_num) (min_le_left _ _)
  · rfl

/-- C4 counterexample: with a budget that is present but equal to 0 the price
filter is skipped (Python truthiness of `0.0`), so an item priced 5 is
returned although 5 > 0. -/
theorem budget_filter_cex :
    (recommend_products [sampleBurger] none (some 0) none []).map
        (fun s => s.item.price) = [5] ∧
    ¬ ((5 : ℚ) ≤ 0) := by decide

/-- C4 (amended): for a present nonzero budget, the filter stage keeps exactly
the items with price ≤ budget that also pass the category condition, and every
returned item's price is ≤ budget. -/
theorem filter_stage_amended :
    ∀ (catalog : List Product) (mood : Option Text) (b : ℚ) (category : Option Text)
      (keywords : List Text) (x : ScoredProduct),
      b ≠ 0 →
      (catalog.filter (passesQuery (some b) category) =
        catalog.filter (fun p => decide (p.price ≤ b) && categoryCond category p)) ∧
      (x ∈ recommend_products catalog mood (some b) category keywords →
        x.item.price ≤ b) := by
  intro catalog mood b category keywords x hb
  constructor
  · apply List.filter_congr
    intro p _
    simp only [passesQuery, budgetCond]
    rw [if_neg hb]
  · intro hx
    rcases mem_recommend_products hx with ⟨p, hp, rfl⟩
    have h2 := (List.mem_filter.mp hp).2
    simp only [passesQuery, budgetCond, Bool.and_eq_true] at h2
    have h3 := h2.1
    rw [if_neg hb] at h3
    exact of_decide_eq_true h3

/-- C4 witness: the amended filter law applied to a concrete catalog. -/
theorem filter_stage_amended_witness :
    (ScoredProduct.mk sampleBurger 80).item.price ≤ 10 :=
  (filter_stage_amended [sampleBurger] none 10 none []
      (ScoredProduct.mk sampleBurger 80) (by norm_num)).2 (by decide)

/-- C5: catalog seeding is idempotent — seeding a populated store is a no-op
returning `inserted = 0` that never rewrites rows, and a second seeding call
with the same items returns `inserted = 0` and leaves the stored rows (hence
the item count) unchanged. -/
theorem populate_products_safe_idempotent :
    (∀ (table products : List Product), table ≠ [] →
        populate_products_safe table products = (table, ⟨true, 0, none⟩)) ∧
    (∀ (table products : List Product),
        (populate_products_safe (populate_products_safe table products).1 products).2.inserted
            = 0 ∧
        (populate_products_safe (populate_products_safe table products).1 products).1 =
          (populate_products_safe table products).1) := by
  constructor
  · exact populate_noop
  · intro table products
    by_cases ht : table = []
    · subst ht
      by_cases hp : products = []
      · subst hp
        exact ⟨rfl, rfl⟩
      · have h1 : (populate_products_safe [] products).1 ≠ [] := by
          have he : populate_products_safe [] products =
              (products.foldl upsertRow [], ⟨true, products.length, none⟩) := by
            unfold populate_products_safe
            rw [if_neg (by simp)]
          rw [he]
          cases products with
          | nil => exact absurd rfl hp
          | cons q qs =>
              show (q :: qs).foldl upsertRow [] ≠ []
              rw [List.foldl_cons]
              exact foldl_upsert_ne_nil qs (upsertRow [] q) (upsertRow_ne_nil [] q)
        rw [populate_noop (populate_products_safe [] products).1 products h1]
        exact ⟨rfl, rfl⟩
    · have h0 := populate_noop table products ht
      rw [h0]
      show (populate_products_safe table products).2.inserted = 0 ∧
        (populate_products_safe table products).1 = table
      rw [h0]
      exact ⟨rfl, rfl⟩

/-- C5 witness: seeding an already-populated store with the same items. -/
theorem populate_products_safe_idempotent_witness :
    populate_products_safe [sampleBurger] [sampleBurger] =
      ([sampleBurger], ⟨true, 0, none⟩) :=
  populate_products_safe_idempotent.1 [sampleBurger] [sampleBurger] (by decide)

/-- C6: both recommendation paths are pure functions of the catalog snapshot
and the extracted intent — two calls on the same arguments return identical
ordered sequences of scored items. -/
theorem recommend_deterministic :
    ∀ (catalog : List Product) (mood : Option Text) (budget : Option ℚ)
      (category : Option Text) (keywords : List Text),
      recommend_products catalog mood budget category keywords =
        recommend_products catalog mood budget category keywords ∧
      fallback_recommend catalog mood category keywords =
        fallback_recommend catalog mood category keywords :=
  fun _ _ _ _ _ => ⟨rfl, rfl⟩

/-- C7: intent extraction on "spicy burger under $10" yields mood "spicy",
category "Burgers", and budget 10 from the first `under $N` pattern. -/
theorem extract_spicy_burger_under_ten :
    extractIntent ("spicy burger under $10".toList) =
      ⟨some ("spicy".toList), some ("Burgers".toList), some 10⟩ := by decide

/-- C8: on "I'll take it, it's amazing!" the purchase-intent (+30) and the
positive-sentiment (+8) rules both fire, the score is exactly 38, and no
clamping reduces it below 30 + 8. -/
theorem interest_take_it_amazing :
    purchaseRule (lowerText ("I\x27ll take it, it\x27s amazing!".toList)) = true ∧
    positiveRule (lowerText ("I\x27ll take it, it\x27s amazing!".toList)) = true ∧
    calculate_interest ("I\x27ll take it, it\x27s amazing!".toList) = 38 ∧
    (30 + 8 : Int) ≤ 38 := by decide

/-- C9: a conversation-log append failure never propagates — the logging call
always returns normally, and under any injected append fault the raw insert
alone would raise that very error while `log_conversation` swallows it and
leaves the log unchanged. -/
theorem log_conversation_never_propagates :
    ∀ (t : List ConversationRow) (row : ConversationRow) (fault : Option String),
      (∃ t2, log_conversation t row fault = Except.ok t2) ∧
      (∀ e : String, rawLogInsert t row (some e) = Except.error e ∧
        log_conversation t row (some e) = Except.ok t) := by
  intro t row fault
  refine ⟨?_, fun e => ⟨rfl, rfl⟩⟩
  cases fault with
  | none => exact ⟨t ++ [row], rfl⟩
  | some e => exact ⟨t, rfl⟩

/-- C10: in both recommendation paths every returned item's match score is at
least its popularity baseline — every bonus is a nonnegative increment. -/
theorem match_score_ge_popularity :
    ∀ (catalog : List Product) (mood : Option Text) (budget : Option ℚ)
      (category : Option Text) (keywords : List Text) (x y : ScoredProduct),
      (x ∈ recommend_products catalog mood budget category keywords →
        x.item.popularity_score ≤ x.match_score) ∧
      (y ∈ fallback_recommend catalog mood category keywords →
        y.item.popularity_score ≤ y.match_score) := by
  intro catalog mood budget category keywords x y
  constructor
  · intro hx
    rcases mem_recommend_products hx with ⟨p, _, rfl⟩
    show p.popularity_score ≤ computeMatchScore mood keywords p
    unfold computeMatchScore
    have h1 := moodBonus_nonneg mood p
    have h2 := foldl_kw_nonneg (fun kw => kwBonus kw p) (fun kw => kwBonus_nonneg kw p) keywords
    omega
  · intro hy
    rcases mem_fallback_recommend hy with ⟨p, _, rfl⟩
    show p.popularity_score ≤ fallbackScore mood category keywords p
    unfold fallbackScore
    have h1 := moodBonus_nonneg mood p
    have h2 := fallbackCategoryBonus_nonneg category p
    have h3 := foldl_kw_nonneg (fun kw => fallbackKwBonus kw p)
      (fun kw => fallbackKwBonus_nonneg kw p) keywords
    omega

/-- C10 witness: the score floor applied on a concrete catalog, in both
paths. -/
theorem match_score_ge_popularity_witness :
    (ScoredProduct.mk sampleBurger 80).item.popularity_score ≤
        (ScoredProduct.mk sampleBurger 80).match_score ∧
    (ScoredProduct.mk sampleBurger 81).item.popularity_score ≤
        (ScoredProduct.mk sampleBurger 81).match_score :=
  ⟨(match_score_ge_popularity [sampleBurger] none none (some ("Burgers".toList)) []
      (ScoredProduct.mk sampleBurger 80) (ScoredProduct.mk sampleBurger 81)).1 (by decide),
   (match_score_ge_popularity [sampleBurger] none none (some ("Burgers".toList)) []
      (ScoredProduct.mk sampleBurger 80) (ScoredProduct.mk sampleBurger 81)).2 (by decide)⟩

end FoodBot
